import Mathlib

/-!
Verification of the `stack_ptr` crate: an owning pointer (`StackPtr<'a, T>`)
to stack-allocated data.

The embedding models the run-time ownership behaviour of the crate:

* Stack memory is a list of slots; each slot holds `some v` while a value `v`
  is live and initialized there, and `none` once its value has been moved out
  (`ptr::read`) or destroyed (`ptr::drop_in_place`).
* Destructor invocations are recorded in order in a trace `drops`.
* Undefined behaviour (destroying or reading a slot whose value is already
  gone) sets a `ub` flag, so "exactly once" claims are falsifiable: a double
  destroy would set `ub`, a missed destroy would leave the value in `mem`.
* Rust scope exit is modelled by a frame: a list of bindings dropped in
  reverse declaration order.  `mem::forget` and moving a value out of a
  binding disarm the binding, so its destructor does not run at scope exit.
-/

namespace StackPtrModel

/-- Run-time state: stack memory slots, the trace of destructor invocations
(in invocation order), and an undefined-behaviour flag. -/
structure State (α : Type) where
  mem : List (Option α)
  drops : List α
  ub : Bool
deriving Repr, DecidableEq

/-- The initial state: no slots, no destructor has run. -/
def State.empty {α : Type} : State α := ⟨[], [], false⟩

/-- Allocate a fresh stack slot holding `v` (a `let _value = $expr;` binding);
returns its address. -/
def alloc {α : Type} (v : α) (s : State α) : Nat × State α :=
  (s.mem.length, { s with mem := s.mem ++ [some v] })

/-- Allocate `l.length` consecutive stack slots holding the elements of `l`
(a `let _value = [e1, ..., en];` binding); returns the start address. -/
def allocSlice {α : Type} (l : List α) (s : State α) : Nat × State α :=
  (s.mem.length, { s with mem := s.mem ++ l.map some })

/-- Read the value currently stored at `addr` (`&*ptr`): `none` if the slot
does not exist or its value has been moved out or destroyed. -/
def readElem {α : Type} (addr : Nat) (s : State α) : Option α :=
  (s.mem[addr]?).join

/-- `std::ptr::drop_in_place(ptr)` on a slot holding one value: records the
destructor invocation in the trace and marks the slot dead.  Destroying a slot
whose value is already gone is undefined behaviour. -/
def dropInPlaceElem {α : Type} (addr : Nat) (s : State α) : State α :=
  match s.mem[addr]? with
  | some (some v) => { s with mem := s.mem.set addr none, drops := s.drops ++ [v] }
  | _ => { s with ub := true }

/-- The addresses of `len` consecutive stack slots starting at `start` (the
element addresses of a slice). -/
def addrRange : Nat → Nat → List Nat
  | _, 0 => []
  | start, len + 1 => start :: addrRange (start + 1) len

/-- Destroy each value of a list of slots, in order (`drop_in_place` iterated
over consecutive element addresses). -/
def dropSlots {α : Type} (addrs : List Nat) (s : State α) : State α :=
  addrs.foldl (fun s p => dropInPlaceElem p s) s

/-- Drop glue of a slice `[T]`: destroy each element in order
(`drop_in_place` on a fat `*mut [T]` of length `len`). -/
def dropInPlaceRange {α : Type} (start len : Nat) (s : State α) : State α :=
  dropSlots (addrRange start len) s

/-- `std::ptr::read(ptr)`: moves the value out of the slot by value.  The slot
is marked dead because ownership has left it (a later `drop_in_place` of the
same slot would be a double destroy).  Reading a dead slot is undefined
behaviour. -/
def ptr_read {α : Type} (addr : Nat) (s : State α) : Option α × State α :=
  match readElem addr s with
  | some v => (some v, { s with mem := s.mem.set addr none })
  | none => (none, { s with ub := true })

/-- `StackPtr<'a, T>` for a sized pointee `T` (src/src/lib.rs lines 37-41):
the `ptr: *mut T` field is the slot address; the two `PhantomData` fields
(`lifetime` and `_marker`) are zero-sized and erased in the model. -/
structure StackPtr where
  ptr : Nat
deriving Repr, DecidableEq

/-- `StackPtr::into_raw_parts` (src/src/lib.rs lines 45-49): returns the held
address and the zero-sized lifetime tag; `mem::forget(sp)` means the consumed
pointer's destructor does not run (reflected in the scenarios below by the
binding that held it becoming dead). -/
def StackPtr.into_raw_parts (sp : StackPtr) : Nat × Unit :=
  (sp.ptr, ())

/-- `StackPtr::from_raw_parts` (src/src/lib.rs lines 52-58): rebuilds a
`StackPtr` from an address and a lifetime tag. -/
def StackPtr.from_raw_parts (ptr : Nat) (_lifetime : Unit) : StackPtr :=
  ⟨ptr⟩

/-- `impl Drop for StackPtr` (src/src/lib.rs lines 61-67):
`ptr::drop_in_place(self.ptr)`. -/
def StackPtr.dropPtr {α : Type} (sp : StackPtr) (s : State α) : State α :=
  dropInPlaceElem sp.ptr s

/-- `impl Deref for StackPtr` (src/src/lib.rs lines 75-83): `&*self.ptr`. -/
def StackPtr.deref {α : Type} (sp : StackPtr) (s : State α) : Option α :=
  readElem sp.ptr s

/-- `StackPtr<'a, [T]>`: the fat `*mut [T]` carries the start address and the
length. -/
structure SliceStackPtr where
  start : Nat
  len : Nat
deriving Repr, DecidableEq

/-- `impl Drop for StackPtr` at `T = [U]`: `drop_in_place` on the fat pointer
destroys every element. -/
def SliceStackPtr.dropPtr {α : Type} (sp : SliceStackPtr) (s : State α) : State α :=
  dropInPlaceRange sp.start sp.len s

/-- Read `len` consecutive slots starting at `start`, in order: `none` if any
slot is dead. -/
def readRange {α : Type} : Nat → Nat → State α → Option (List α)
  | _, 0, _ => some []
  | start, len + 1, s =>
    match readElem start s with
    | none => none
    | some v =>
      match readRange (start + 1) len s with
      | none => none
      | some rest => some (v :: rest)

/-- `impl Deref for StackPtr` at `T = [U]`: reads the whole slice back.
`none` if any element slot is dead. -/
def SliceStackPtr.deref {α : Type} (sp : SliceStackPtr) (s : State α) : Option (List α) :=
  readRange sp.start sp.len s

/-- A local binding of the enclosing scope, as the compiler sees it at scope
exit: what drop glue (if any) runs for it. -/
inductive Binding
  /-- a plain local that still owns the value at `addr` -/
  | value (addr : Nat)
  /-- a plain local array `[T; n]` that still owns `len` slots from `start` -/
  | slice (start len : Nat)
  /-- a live `StackPtr<'a, T>` binding: its `Drop` impl runs -/
  | stackPtr (ptr : Nat)
  /-- a live `StackPtr<'a, [T]>` binding: its `Drop` impl runs -/
  | slicePtr (start len : Nat)
  /-- a binding that was moved out of or passed to `mem::forget`: no drop -/
  | dead
  /-- the zero-sized `_lifetime_marker: ()` binding: no drop glue -/
  | marker
deriving Repr, DecidableEq

/-- The drop glue the compiler runs for one binding at scope exit. -/
def Binding.dropAction {α : Type} : Binding → State α → State α
  | .value addr, s => dropInPlaceElem addr s
  | .slice start len, s => dropInPlaceRange start len s
  | .stackPtr ptr, s => dropInPlaceElem ptr s
  | .slicePtr start len, s => dropInPlaceRange start len s
  | .dead, s => s
  | .marker, s => s

/-- Normal scope exit: the bindings of the frame are dropped in reverse
declaration order. -/
def scopeExit {α : Type} (frame : List Binding) (s : State α) : State α :=
  frame.reverse.foldl (fun s b => b.dropAction s) s

/-- `mem::forget(_value)`: the binding is consumed without running its
destructor. -/
def mem_forget (_b : Binding) : Binding := Binding.dead

/-- The `__declare_stackptr!` construction protocol (src/src/lib.rs lines
154-164), for a sized pointee:
`let mut _value = $expr; let mut _lifetime_marker = ();`
`let ptr = &mut _value as *mut T; mem::forget(_value);`
`StackPtr::from_raw_parts(ptr, lifetime_of(&mut _lifetime_marker))`.
Returns the exposed `StackPtr`, the scope frame after the protocol (in
declaration order: `_value`, `_lifetime_marker`, the `StackPtr` binding), and
the new state. -/
def declare_stackptr {α : Type} (v : α) (s : State α) : StackPtr × List Binding × State α :=
  let (addr, s1) := alloc v s
  let valueBinding := Binding.value addr
  let markerBinding := Binding.marker
  let ptr := addr
  let valueBinding := mem_forget valueBinding
  let sp := StackPtr.from_raw_parts ptr ()
  (sp, [valueBinding, markerBinding, Binding.stackPtr sp.ptr], s1)

/-- The same construction protocol at `T = [U]` (as in
`declare_stackptr! { let slice: StackPtr<[i32]> = StackPtr::new([1,2,3,4,5]); }`):
`&mut _value as *mut [U]` is the unsizing cast producing the fat pointer. -/
def declare_stackptr_slice {α : Type} (l : List α) (s : State α) :
    SliceStackPtr × List Binding × State α :=
  let (start, s1) := allocSlice l s
  let valueBinding := Binding.slice start l.length
  let markerBinding := Binding.marker
  let sp : SliceStackPtr := ⟨start, l.length⟩
  let valueBinding := mem_forget valueBinding
  (sp, [valueBinding, markerBinding, Binding.slicePtr sp.start sp.len], s1)

/-- Scenario for C1: construct a `StackPtr` over `v` with `declare_stackptr!`
and let the scope exit normally. -/
def scenarioDeclareDrop {α : Type} (v : α) : State α :=
  let (_sp, frame, s) := declare_stackptr v State.empty
  scopeExit frame s

/-- Disassemble a `StackPtr` and immediately rebuild it with the same type:
`StackPtr::from_raw_parts` applied to the result of `StackPtr::into_raw_parts`. -/
def roundTrip (sp : StackPtr) : StackPtr :=
  let (ptr, lifetime) := StackPtr.into_raw_parts sp
  StackPtr.from_raw_parts ptr lifetime

/-- Scenario for C2: construct over `v`, disassemble and reassemble with the
same type, then let the scope exit normally.  Passing `sp` to
`into_raw_parts` moves it out of its binding (index 2 of the frame becomes
dead), and the reassembled pointer is a new binding declared after it. -/
def scenarioRoundTrip {α : Type} (v : α) : State α :=
  let (sp, frame, s) := declare_stackptr v State.empty
  let (ptr, lifetime) := StackPtr.into_raw_parts sp
  let sp2 := StackPtr.from_raw_parts ptr lifetime
  let frame1 := frame.set 2 Binding.dead ++ [Binding.stackPtr sp2.ptr]
  scopeExit frame1 s

/-- Scenario for C7: construct over `v`, disassemble, never reassemble, and
let the scope exit normally.  The raw pair `(ptr, lifetime)` has no drop glue
of its own. -/
def scenarioLeak {α : Type} (v : α) : State α :=
  let (sp, frame, s) := declare_stackptr v State.empty
  let (_ptr, _lifetime) := StackPtr.into_raw_parts sp
  let frame1 := frame.set 2 Binding.dead
  scopeExit frame1 s

/-- The vtable the compiler emits when a concrete `T` is unsized to
`dyn Trait`: its drop entry is `T`'s drop glue, i.e. destroy the concrete
value in place. -/
structure VTable (α : Type) where
  dropGlue : Nat → State α → State α

/-- The concrete type's vtable: the drop entry destroys the value stored at
the address. -/
def concreteVTable (α : Type) : VTable α :=
  ⟨dropInPlaceElem⟩

/-- The `ptr as *mut $ty` cast inside `coerce_stackptr!` at an unsized `$ty`:
an unsizing cast that widens the thin address into a fat pointer carrying the
concrete type's vtable. -/
def unsizeCast {α : Type} (ptr : Nat) : Nat × VTable α :=
  (ptr, concreteVTable α)

/-- `StackPtr<'a, dyn Trait>`: the fat `*mut dyn Trait` carries the address
and the vtable. -/
structure DynStackPtr (α : Type) where
  ptr : Nat
  vtable : VTable α

/-- `StackPtr::from_raw_parts` at an interface (`dyn Trait`) pointee. -/
def DynStackPtr.from_raw_parts {α : Type} (fat : Nat × VTable α) (_lifetime : Unit) :
    DynStackPtr α :=
  ⟨fat.1, fat.2⟩

/-- `impl Drop for StackPtr` at `T = dyn Trait`: `ptr::drop_in_place(self.ptr)`
on a fat pointer dispatches through the vtable's drop entry. -/
def DynStackPtr.dropPtr {α : Type} (dp : DynStackPtr α) (s : State α) : State α :=
  dp.vtable.dropGlue dp.ptr s

/-- The `coerce_stackptr!` macro (src/src/lib.rs lines 184-192):
`let (ptr, lifetime) = StackPtr::into_raw_parts($sp);`
`StackPtr::from_raw_parts(ptr as *mut $ty, lifetime)`. -/
def coerce_stackptr {α : Type} (sp : StackPtr) : DynStackPtr α :=
  let (ptr, lifetime) := StackPtr.into_raw_parts sp
  DynStackPtr.from_raw_parts (unsizeCast ptr) lifetime

/-- Scenario for C3: construct over a concrete value `v`, coerce to an
interface-typed pointer, and let the scope exit normally.  `sp` is moved into
the macro (its binding dies via `into_raw_parts`); the coerced pointer is
declared last, so at scope exit its `Drop` impl runs first, then the dead
`StackPtr` binding, the marker and the forgotten `_value` contribute
nothing. -/
def scenarioCoerce {α : Type} (v : α) : State α :=
  let (sp, frame, s) := declare_stackptr v State.empty
  let dsp : DynStackPtr α := coerce_stackptr sp
  let frame1 := frame.set 2 Binding.dead
  scopeExit frame1 (dsp.dropPtr s)

/-- `SliceIntoIter<'a, T>` (src/src/iter.rs lines 7-10): the
`slice_iter: slice::IterMut<'a, T>` field is modelled as the list of the
remaining elements' addresses; the `PhantomData` marker is erased. -/
structure SliceIntoIter where
  slice_iter : List Nat
deriving Repr, DecidableEq

/-- `impl Iterator for SliceIntoIter` (src/src/iter.rs lines 22-32):
`self.slice_iter.next().map(|ptr| ptr::read(ptr))`. -/
def SliceIntoIter.next {α : Type} (it : SliceIntoIter) (s : State α) :
    Option α × SliceIntoIter × State α :=
  match it.slice_iter with
  | [] => (none, it, s)
  | p :: rest =>
    let (v, s1) := ptr_read p s
    (v, ⟨rest⟩, s1)

/-- `impl Drop for SliceIntoIter` (src/src/iter.rs lines 12-20): the
not-yet-yielded elements are destroyed in place, in order. -/
def SliceIntoIter.dropIter {α : Type} (it : SliceIntoIter) (s : State α) : State α :=
  dropSlots it.slice_iter s

/-- Modelled from the spec: `StackPtr::into_mut`, used by
`impl IntoIterator for StackPtr<'a, [T]>` (src/src/iter.rs line 40), is not
defined anywhere under src/.  Per the spec (disassembly consumes the pointer
and disables its destructor; the iteration view takes over the backing
storage), it consumes the slice pointer without running its destructor and
returns the underlying `&'a mut [T]`, modelled as the list of element
addresses. -/
def into_mut (sp : SliceStackPtr) : List Nat :=
  addrRange sp.start sp.len

/-- `impl IntoIterator for StackPtr<'a, [T]>` (src/src/iter.rs lines 34-44):
`SliceIntoIter { slice_iter: StackPtr::into_mut(self).into_iter(), ... }`. -/
def SliceStackPtr.into_iter (sp : SliceStackPtr) : SliceIntoIter :=
  ⟨into_mut sp⟩

/-- Run the iterator's `next` up to `k` times, collecting the yielded
elements in order. -/
def runIter {α : Type} : Nat → SliceIntoIter → State α → List α × SliceIntoIter × State α
  | 0, it, s => ([], it, s)
  | k + 1, it, s =>
    match it.next s with
    | (none, it1, s1) => ([], it1, s1)
    | (some v, it1, s1) =>
      let (vs, it2, s2) := runIter k it1 s1
      (v :: vs, it2, s2)

/-- Scenario for C6: construct over the array `l`, turn the pointer into a
consuming iterator, take `k` elements, abandon the iteration (the iterator is
dropped), and let the scope exit normally.  `sp` is moved into `into_iter`
(its frame binding dies; inside, `into_mut` consumes it without running its
destructor). -/
def scenarioIter {α : Type} (l : List α) (k : Nat) : List α × State α :=
  let (sp, frame, s) := declare_stackptr_slice l State.empty
  let it := sp.into_iter
  let frame1 := frame.set 2 Binding.dead
  let (ys, it1, s1) := runIter k it s
  let s2 := it1.dropIter s1
  (ys, scopeExit frame1 s2)

/-- `impl IntoIterator for StackPtr<'a, T> where T: IntoIterator`
(src/src/lib.rs lines 93-105):
`let ptr = self.ptr; mem::forget(self); ptr::read(ptr).into_iter()`.
`mem::forget(self)` first suppresses the pointer's own destructor, and only
then is the pointee moved out by value; the pointee's own `into_iter` is an
opaque delegation, so the model returns the moved-out value itself. -/
def StackPtr.into_iter_delegate {α : Type} (sp : StackPtr) (s : State α) :
    Option α × State α :=
  let ptr := sp.ptr
  ptr_read ptr s

/-- Scenario for C10: construct over `v`, call the delegating `into_iter`
(which consumes `sp`: its frame binding dies), and let the scope exit
normally. -/
def scenarioIntoIterDelegate {α : Type} (v : α) : Option α × State α :=
  let (sp, frame, s) := declare_stackptr v State.empty
  let frame1 := frame.set 2 Binding.dead
  let (pointee, s1) := StackPtr.into_iter_delegate sp s
  (pointee, scopeExit frame1 s1)

/-- Whether a reference is shared (`&`) or exclusive (`&mut`). -/
inductive RefKind
  | shared
  | exclusive
deriving Repr, DecidableEq

/-- The lifetime a returned reference is valid for: just the duration of the
call's borrow of `self`, or the pointer's full bound lifetime `'a`. -/
inductive RetLifetime
  | callDuration
  | boundLifetime
deriving Repr, DecidableEq

/-- The type signature of an accessor method, as written in the source:
how it borrows `self`, what kind of reference it returns, and for which
lifetime the returned reference is valid. -/
structure AccessorSig where
  receiver : RefKind
  retKind : RefKind
  retLifetime : RetLifetime
deriving Repr, DecidableEq

/-- src/src/stack_ptr.rs lines 21-25: `pub fn borrow(&self) -> &'a T`
with body `&*self.ptr`. -/
def borrow_sig : AccessorSig :=
  { receiver := RefKind.shared
    retKind := RefKind.shared
    retLifetime := RetLifetime.boundLifetime }

/-- src/src/stack_ptr.rs lines 27-31: `pub fn borrow_mut(&mut self) -> &'a T`.
The body builds `&mut *self.ptr`, but the declared return type is the shared
`&'a T`, to which the mutable reference is coerced. -/
def borrow_mut_sig : AccessorSig :=
  { receiver := RefKind.exclusive
    retKind := RefKind.shared
    retLifetime := RetLifetime.boundLifetime }

/-- Auto-trait facts about the pointee type `T`: whether `T: Send` and
whether `T: Sync`. -/
structure AutoTraitFacts where
  pointeeSend : Bool
  pointeeSync : Bool
deriving Repr, DecidableEq

/-- A raw pointer field `*mut T` is never `Send`, whatever `T` is, so the
auto impl the compiler would derive for `StackPtr` from its fields never
applies. -/
def autoSendFromFields (_f : AutoTraitFacts) : Bool := false

/-- A raw pointer field `*mut T` is never `Sync` either. -/
def autoSyncFromFields (_f : AutoTraitFacts) : Bool := false

/-- src/src/impls.rs line 7: the crate declares a manual
`impl<'a, T: 'a + Send + ?Sized> Send for StackPtr<'a, T>`.  A manual impl
replaces the auto impl entirely, so `StackPtr<'a, T>: Send` holds for exactly
the instantiations satisfying the impl's bound `T: Send`. -/
def sendImplBound (f : AutoTraitFacts) : Bool := f.pointeeSend

/-- src/src/impls.rs line 8: the manual
`impl<'a, T: 'a + Sync + ?Sized> Sync for StackPtr<'a, T>`, with bound
`T: Sync`. -/
def syncImplBound (f : AutoTraitFacts) : Bool := f.pointeeSync

/-- The crate writes a manual `Send` impl for `StackPtr`. -/
def hasManualSendImpl : Bool := true

/-- The crate writes a manual `Sync` impl for `StackPtr`. -/
def hasManualSyncImpl : Bool := true

/-- Whether `StackPtr<'a, T>: Send` holds, by Rust's trait resolution: the
manual impl, if present, replaces the auto impl. -/
def stackPtrSend (f : AutoTraitFacts) : Bool :=
  if hasManualSendImpl then sendImplBound f else autoSendFromFields f

/-- Whether `StackPtr<'a, T>: Sync` holds. -/
def stackPtrSync (f : AutoTraitFacts) : Bool :=
  if hasManualSyncImpl then syncImplBound f else autoSyncFromFields f

/-- Impl-level facts about the `StackPtr` type itself: src/src/lib.rs lines
61-67 give it a `Drop` impl, and nothing in the crate derives or implements
`Copy` or `Clone` for it. -/
structure TypeFacts where
  hasDropImpl : Bool
  hasCopyImpl : Bool
deriving Repr, DecidableEq

/-- The facts for `StackPtr<'a, T>` as defined in the source. -/
def stackPtrFacts : TypeFacts :=
  { hasDropImpl := true, hasCopyImpl := false }

/-- Whether values of the type are implicitly duplicable.  Rust requires a
`Copy` impl, and additionally forbids `Copy` on any type with a `Drop` impl
(error E0184). -/
def isCopy (t : TypeFacts) : Bool :=
  t.hasCopyImpl && !t.hasDropImpl

/-- A statement of a straight-line surface program, as rustc's move checker
sees it.  Bindings and owned values are identified by numbers. -/
inductive Stmt
  /-- `let x = <expr>;` where the expression produces the fresh owned value
  `v` (for `declare_stackptr!`, the private `_value` binding) -/
  | declareVal (x v : Nat)
  /-- `let dst = src;` or passing `src` by value (for a non-`Copy` type this
  moves ownership out of `src`; `mem::forget(src)` and
  `StackPtr::into_raw_parts(src)` are also by-value uses of `src`) -/
  | moveTo (dst src : Nat)
  /-- any use of the binding `x` requiring it to still be live -/
  | use (x : Nat)
deriving Repr, DecidableEq

/-- One step of rustc's move checking.  The checker state is the list of live
bindings paired with the value each one currently owns; `none` rejects the
program (error E0382, use of moved value).  For a `Copy` type a move leaves
the source binding live; for a non-`Copy` type it kills it. -/
def moveStep (copy : Bool) (live : List (Nat × Nat)) : Stmt → Option (List (Nat × Nat))
  | .declareVal x v =>
    if v ∈ live.map Prod.snd then none else some ((x, v) :: live)
  | .moveTo dst src =>
    match live.find? (fun p => p.1 == src) with
    | some pr =>
      some ((dst, pr.2) :: (if copy then live else live.filter (fun p => !(p.1 == src))))
    | none => none
  | .use x =>
    if x ∈ live.map Prod.fst then some live else none

/-- Run the move checker over a whole program from a given state. -/
def moveCheckFrom (copy : Bool) (live : List (Nat × Nat)) :
    List Stmt → Option (List (Nat × Nat))
  | [] => some live
  | st :: rest =>
    match moveStep copy live st with
    | some live1 => moveCheckFrom copy live1 rest
    | none => none

/-- Run the move checker for programs manipulating values of a given type,
starting from an empty scope. -/
def moveCheck (t : TypeFacts) (prog : List Stmt) : Option (List (Nat × Nat)) :=
  moveCheckFrom (isCopy t) [] prog

/-- The body of `sound()` (src/src/stack_ptr.rs lines 66-73) as the move
checker sees it: the `stack_ptr!` construction (binding 0 is `_value` owning
value 7; the ownership token moves into the `StackPtr` binding 1, `slice`),
then `let slice2 = slice;` (binding 2) and `let slice3 = slice;`
(binding 3) — a second by-value use of `slice` after it was moved. -/
def soundProg : List Stmt :=
  [Stmt.declareVal 0 7, Stmt.moveTo 1 0, Stmt.moveTo 2 1, Stmt.moveTo 3 1]

/-- A program that constructs a `StackPtr` and then uses the original
lexical binding `_value` again. -/
def useOriginalProg : List Stmt :=
  [Stmt.declareVal 0 7, Stmt.moveTo 1 0, Stmt.use 0]

/-- Reading the slot right after a prefix of the memory returns the slot's
content. -/
theorem readElem_append {α : Type} (m₁ : List (Option α)) (x : Option α)
    (t : List (Option α)) (d : List α) (u : Bool) :
    readElem m₁.length ⟨m₁ ++ x :: t, d, u⟩ = x := by
  simp [readElem, List.getElem?_append_right (Nat.le_refl _)]

/-- Setting the slot right after a prefix replaces exactly that slot. -/
theorem set_append_cons {α : Type} (m₁ : List α) (x y : α) (t : List α) :
    (m₁ ++ x :: t).set m₁.length y = m₁ ++ y :: t := by
  simp [List.set_append]

/-- `drop_in_place` on a live slot records its value in the trace and kills
the slot. -/
theorem dropInPlaceElem_boundary {α : Type} (m₁ : List (Option α)) (v : α)
    (t : List (Option α)) (d : List α) (u : Bool) :
    dropInPlaceElem m₁.length ⟨m₁ ++ some v :: t, d, u⟩ = ⟨m₁ ++ none :: t, d ++ [v], u⟩ := by
  simp [dropInPlaceElem, List.getElem?_append_right (Nat.le_refl _), set_append_cons]

/-- `ptr::read` on a live slot returns its value and kills the slot without
recording a destructor invocation. -/
theorem ptr_read_boundary {α : Type} (m₁ : List (Option α)) (v : α)
    (t : List (Option α)) (d : List α) (u : Bool) :
    ptr_read m₁.length ⟨m₁ ++ some v :: t, d, u⟩ = (some v, ⟨m₁ ++ none :: t, d, u⟩) := by
  simp [ptr_read, readElem_append, set_append_cons]

/-- Destroying a block of `l.length` live slots in order destroys each value
of `l` exactly once, in order, with no undefined behaviour. -/
theorem dropSlots_addrRange {α : Type} (l : List α) (m₁ : List (Option α))
    (d : List α) (u : Bool) :
    dropSlots (addrRange m₁.length l.length) ⟨m₁ ++ l.map some, d, u⟩ =
      ⟨m₁ ++ List.replicate l.length none, d ++ l, u⟩ := by
  induction l generalizing m₁ d with
  | nil => simp [dropSlots, addrRange]
  | cons v l ih =>
    have step : dropInPlaceElem m₁.length ⟨m₁ ++ (v :: l).map some, d, u⟩
        = ⟨m₁ ++ none :: l.map some, d ++ [v], u⟩ := by
      simpa using dropInPlaceElem_boundary m₁ v (l.map some) d u
    have ih' := ih (m₁ ++ [none]) (d ++ [v])
    simp only [List.length_append, List.length_singleton, List.append_assoc,
      List.singleton_append] at ih'
    show dropSlots (addrRange (m₁.length + 1) l.length)
        (dropInPlaceElem m₁.length ⟨m₁ ++ (v :: l).map some, d, u⟩) = _
    rw [step, ih']
    simp [List.replicate_succ]

/-- Reading a block of `l.length` live slots in order reads back exactly
`l`. -/
theorem readRange_append {α : Type} (l : List α) (m₁ : List (Option α))
    (d : List α) (u : Bool) :
    readRange m₁.length l.length ⟨m₁ ++ l.map some, d, u⟩ = some l := by
  induction l generalizing m₁ with
  | nil => rfl
  | cons v l ih =>
    have ih' := ih (m₁ ++ [some v])
    simp only [List.length_append, List.length_singleton, List.append_assoc,
      List.singleton_append] at ih'
    simp [readRange, readElem_append, ih']

/-- Taking `k ≤ l.length` elements from the consuming slice iterator yields
the first `k` values of `l` in order, moves each out of its slot exactly
once, and leaves the iterator holding the addresses of the remaining
elements. -/
theorem runIter_addrRange {α : Type} (k : Nat) (l : List α) (m₁ : List (Option α))
    (d : List α) (u : Bool) (h : k ≤ l.length) :
    runIter k ⟨addrRange m₁.length l.length⟩ ⟨m₁ ++ l.map some, d, u⟩ =
      (l.take k, ⟨addrRange (m₁.length + k) (l.length - k)⟩,
        ⟨(m₁ ++ List.replicate k none) ++ (l.drop k).map some, d, u⟩) := by
  induction k generalizing l m₁ with
  | zero => simp [runIter]
  | succ k ih =>
    cases l with
    | nil => exact absurd h (by simp)
    | cons v l =>
      have h' : k ≤ l.length := Nat.le_of_succ_le_succ h
      have hnext : SliceIntoIter.next (α := α) ⟨addrRange m₁.length (v :: l).length⟩
          ⟨m₁ ++ (v :: l).map some, d, u⟩
          = (some v, ⟨addrRange (m₁.length + 1) l.length⟩, ⟨m₁ ++ none :: l.map some, d, u⟩) := by
        simp only [List.length_cons, addrRange, SliceIntoIter.next, List.map_cons]
        rw [ptr_read_boundary]
      have ih' := ih l (m₁ ++ [none]) h'
      simp only [List.length_append, List.length_singleton, List.append_assoc,
        List.singleton_append] at ih'
      simp only [runIter, hnext, ih']
      simp [List.replicate_succ, Nat.add_right_comm, Nat.succ_sub_succ, Nat.add_assoc]

/-- One accepted step of the move checker for a non-`Copy` type preserves the
single-owner invariant: each owned value has at most one live owner. -/
theorem moveStep_nodup (st : Stmt) (live live1 : List (Nat × Nat))
    (hn : (live.map Prod.snd).Nodup)
    (h : moveStep false live st = some live1) :
    (live1.map Prod.snd).Nodup := by
  cases st with
  | declareVal x v =>
    simp only [moveStep] at h
    split at h
    · cases h
    · injection h with h
      subst h
      rename_i hv
      simpa [List.nodup_cons, hv] using hn
  | moveTo dst src =>
    simp only [moveStep] at h
    cases hfind : live.find? (fun p => p.1 == src) with
    | none => rw [hfind] at h; cases h
    | some pr =>
      rw [hfind] at h
      simp only [Bool.false_eq_true, if_false] at h
      injection h with h
      subst h
      have hpr_mem : pr ∈ live := List.mem_of_find?_eq_some hfind
      have hpr_src : pr.1 = src := by simpa using List.find?_some hfind
      simp only [List.map_cons]
      refine List.nodup_cons.mpr ⟨?_, ?_⟩
      · intro hmem
        obtain ⟨q, hq_mem_f, hq_snd⟩ := List.mem_map.mp hmem
        obtain ⟨hq_mem, hq_pred⟩ := List.mem_filter.mp hq_mem_f
        have hq_pr : q = pr := List.inj_on_of_nodup_map hn hq_mem hpr_mem hq_snd
        subst hq_pr
        simp [hpr_src] at hq_pred
      · exact List.Nodup.sublist ((List.filter_sublist live).map Prod.snd) hn
  | use x =>
    simp only [moveStep] at h
    split at h
    · injection h with h
      subst h
      exact hn
    · cases h

/-- An accepted run of the move checker for a non-`Copy` type preserves the
single-owner invariant. -/
theorem moveCheckFrom_nodup (prog : List Stmt) (live live' : List (Nat × Nat))
    (hn : (live.map Prod.snd).Nodup)
    (h : moveCheckFrom false live prog = some live') :
    (live'.map Prod.snd).Nodup := by
  induction prog generalizing live with
  | nil =>
    simp only [moveCheckFrom] at h
    injection h with h
    subst h
    exact hn
  | cons st rest ih =>
    rw [moveCheckFrom] at h
    cases hstep : moveStep false live st with
    | none => rw [hstep] at h; cases h
    | some live1 =>
      rw [hstep] at h
      exact ih live1 (moveStep_nodup st live live1 hn hstep) h

/-- C1: for every pointee type and value `v`, constructing a `StackPtr` over
`v` via the `declare_stackptr!` protocol (which forgets the original binding)
and then destroying it by normal scope exit runs the destructor on `v`
exactly once — the destructor trace is exactly `[v]`, no double destroy
occurs (no undefined behaviour), and the slot is left dead. -/
theorem c1_construct_and_scope_exit_destroys_exactly_once {α : Type} (v : α) :
    scenarioDeclareDrop v = ⟨[none], [v], false⟩ := rfl

/-- C2: `from_raw_parts` applied to the result of `into_raw_parts` at the
same type is the identity on the pointer, so the reassembled pointer has the
same deref observations and the same drop behaviour in every state, and the
construct/round-trip/scope-exit scenario ends in exactly the same state as
the scenario without the round trip. -/
theorem c2_raw_parts_round_trip_is_identity {α : Type} (sp : StackPtr) (s : State α) (v : α) :
    roundTrip sp = sp ∧
    StackPtr.deref (roundTrip sp) s = StackPtr.deref sp s ∧
    StackPtr.dropPtr (roundTrip sp) s = StackPtr.dropPtr sp s ∧
    scenarioRoundTrip v = scenarioDeclareDrop v :=
  ⟨rfl, rfl, rfl, rfl⟩

/-- C3: constructing a `StackPtr` over a concrete value `v`, coercing it to
an interface-typed pointer with `coerce_stackptr!` (into_raw_parts, unsizing
pointer cast, from_raw_parts), and dropping the coerced pointer still runs
the concrete pointee's destructor exactly once, dispatched through the
vtable retained in the fat interface pointer. -/
theorem c3_coerce_preserves_exactly_once_destroy {α : Type} (v : α) :
    scenarioCoerce v = ⟨[none], [v], false⟩ := rfl

/-- C4: reading the pointee back through the owning pointer's read accessor
observes exactly the original value: for a sized pointee the deref of a
freshly constructed pointer returns `v`, and for an array pointee `l` it
returns the whole slice `l` (in particular `[1,2,3,4,5]` reads back as
`[1,2,3,4,5]`). -/
theorem c4_deref_reads_back_original_value {α : Type} (v : α) (l : List α) :
    StackPtr.deref (declare_stackptr v State.empty).1
      (declare_stackptr v State.empty).2.2 = some v ∧
    SliceStackPtr.deref (declare_stackptr_slice l State.empty).1
      (declare_stackptr_slice l State.empty).2.2 = some l := by
  refine ⟨rfl, ?_⟩
  simpa [declare_stackptr_slice, allocSlice, State.empty, SliceStackPtr.deref]
    using readRange_append l [] [] false

/-- C5 (code evidence): in src/src/stack_ptr.rs, `borrow` returns a shared
reference valid for the full bound lifetime, but `borrow_mut` — despite its
name, its `&mut self` receiver, and the `&mut *self.ptr` in its body — is
declared to return the shared `&'a T`, not the exclusive `&'a mut T`, so it
grants no exclusive-write access. -/
theorem c5_borrow_mut_returns_shared_reference :
    borrow_mut_sig.receiver = RefKind.exclusive ∧
    borrow_mut_sig.retKind = RefKind.shared ∧
    borrow_sig.retKind = RefKind.shared ∧
    borrow_sig.retLifetime = RetLifetime.boundLifetime ∧
    borrow_mut_sig.retLifetime = RetLifetime.boundLifetime :=
  ⟨rfl, rfl, rfl, rfl, rfl⟩

/-- C6: consuming iteration over an array-backed owning pointer of length `N`
yields the first `k ≤ N` elements in their original order, each moved out
exactly once; abandoning the iteration and dropping the iterator then
destroys exactly the remaining `N − k` elements once each (the destructor
trace is `l.drop k`), with no double destroy (no undefined behaviour) and no
leak (every slot ends dead). -/
theorem c6_slice_into_iter_yields_in_order_then_drops_rest {α : Type}
    (l : List α) (k : Nat) (h : k ≤ l.length) :
    scenarioIter l k = (l.take k, ⟨List.replicate l.length none, l.drop k, false⟩) := by
  have hrun := runIter_addrRange k l [] [] false h
  simp only [List.length_nil, List.nil_append, Nat.zero_add] at hrun
  have hdrop := dropSlots_addrRange (l.drop k) (List.replicate k none) ([] : List α) false
  simp only [List.length_replicate, List.length_drop, List.nil_append] at hdrop
  simp only [scenarioIter, declare_stackptr_slice, allocSlice, State.empty, mem_forget,
    SliceStackPtr.into_iter, into_mut, List.length_nil, List.nil_append]
  rw [hrun]
  simp only [SliceIntoIter.dropIter]
  rw [hdrop]
  have hrep : List.replicate k (none : Option α) ++ List.replicate (l.length - k) none
      = List.replicate l.length none := by
    rw [← List.replicate_add, Nat.add_sub_cancel' h]
  simp [scopeExit, Binding.dropAction, hrep]

/-- C6 witness: the spec's test case, `N = 5`, `k = 2`. -/
theorem c6_witness_five_take_two :
    2 ≤ ([1, 2, 3, 4, 5] : List Nat).length ∧
    scenarioIter ([1, 2, 3, 4, 5] : List Nat) 2 =
      (([1, 2, 3, 4, 5] : List Nat).take 2,
        ⟨List.replicate ([1, 2, 3, 4, 5] : List Nat).length none,
          ([1, 2, 3, 4, 5] : List Nat).drop 2, false⟩) :=
  ⟨by decide, c6_slice_into_iter_yields_in_order_then_drops_rest [1, 2, 3, 4, 5] 2 (by decide)⟩

/-- C7: `into_raw_parts` returns exactly the held address and the (zero-size)
lifetime tag, and in the construct/disassemble/never-reassemble scenario no
destructor ever runs for the pointee: the trace stays empty, the pointee's
bytes are unchanged in its slot (a silent leak), and no undefined behaviour
occurs. -/
theorem c7_into_raw_parts_disarms_destructor_and_leaks {α : Type} (sp : StackPtr) (v : α) :
    StackPtr.into_raw_parts sp = (sp.ptr, ()) ∧
    scenarioLeak v = ⟨[some v], [], false⟩ :=
  ⟨rfl, rfl⟩

/-- C8: `StackPtr` is move-only (it has a `Drop` impl and no `Copy` impl, so
it is not duplicable); the move checker rejects using the pointer again after
moving it (the body of `sound()`) and rejects using the original lexical
binding after construction; and every program the checker accepts maintains
at most one live owner per original value at every point. -/
theorem c8_stackptr_is_move_only_single_owner :
    isCopy stackPtrFacts = false ∧
    moveCheck stackPtrFacts useOriginalProg = none ∧
    moveCheck stackPtrFacts soundProg = none ∧
    ∀ (prog : List Stmt) (live : List (Nat × Nat)),
      moveCheck stackPtrFacts prog = some live → (live.map Prod.snd).Nodup := by
  refine ⟨rfl, rfl, rfl, ?_⟩
  intro prog live h
  exact moveCheckFrom_nodup prog [] live (by simp) h

/-- C8 witness: a program that constructs a `StackPtr` and moves it once is
accepted, and its final scope has a single owner of the single value. -/
theorem c8_witness_accepted_program :
    (([((1 : Nat), (7 : Nat))]).map Prod.snd).Nodup :=
  c8_stackptr_is_move_only_single_owner.2.2.2
    [Stmt.declareVal 0 7, Stmt.moveTo 1 0] [(1, 7)] (by decide)

/-- C9: `StackPtr<'a, T>` is `Send` exactly when the pointee is `Send` and
`Sync` exactly when the pointee is `Sync`: the manual impls' bounds propagate
the pointee's capabilities, neither granting a capability the pointee lacks
nor withholding one it has. -/
theorem c9_send_sync_exactly_propagate_pointee (f : AutoTraitFacts) :
    stackPtrSend f = f.pointeeSend ∧ stackPtrSync f = f.pointeeSync :=
  ⟨rfl, rfl⟩

/-- C10: the delegating `into_iter` (for a pointee type with its own
iterator) suppresses the `StackPtr`'s destructor and moves the pointee out by
value, so the pointee is consumed exactly once — it is handed to the
delegate, its slot is left dead, no destructor runs for it from the
`StackPtr`'s drop (empty trace), and no double use occurs. -/
theorem c10_into_iter_forgets_then_reads_once {α : Type} (v : α) :
    scenarioIntoIterDelegate v = (some v, ⟨[none], [], false⟩) := rfl

end StackPtrModel
